import Mathlib

/-!
# Verification of the IGES loader core (`src/IGESLoader.ts`)

A shallow embedding of the decoding pipeline of the `three-iges-loader`
package: section splitting, the five section parsers, directory/parameter
assembly and the per-entity geometry synthesis, together with theorems
settling the specification claims.

JavaScript strings are modelled as `List Char` (the inputs are ASCII text).
JavaScript numbers are modelled as `Option ℚ`, with `none` playing the role
of `NaN`; the numeric values appearing in IGES fields are small decimals, so
exact rational arithmetic coincides with IEEE double arithmetic on every
value this development evaluates.
-/

set_option maxRecDepth 20000

/-- Characters of a string literal. -/
def chars (s : String) : List Char := s.toList

/-- A JavaScript number: `none` is `NaN`. -/
abbrev JSNum := Option ℚ

/-- Whitespace recognised by `parseInt`/`parseFloat`/`trim`
(the ASCII subset; the inputs are ASCII text). -/
def isWS (c : Char) : Bool :=
  c = ' ' ∨ c = '\t' ∨ c = '\n' ∨ c = '\r' ∨ c = '\x0b' ∨ c = '\x0c'

/-- JavaScript `String.prototype.trim`. -/
def trimL (s : List Char) : List Char :=
  ((s.dropWhile isWS).reverse.dropWhile isWS).reverse

/-- JavaScript `String.prototype.substr(start, len)` (non-negative arguments). -/
def substrL (s : List Char) (start len : Nat) : List Char :=
  (s.drop start).take len

/-- Value of a list of decimal digits. -/
def decVal (ds : List Char) : Nat :=
  ds.foldl (fun a c => 10 * a + (c.toNat - '0'.toNat)) 0

def isHexDigit (c : Char) : Bool :=
  c.isDigit ∨ ('a' ≤ c ∧ c ≤ 'f') ∨ ('A' ≤ c ∧ c ≤ 'F')

def hexDigitVal (c : Char) : Nat :=
  if c.isDigit then c.toNat - '0'.toNat
  else if 'a' ≤ c ∧ c ≤ 'f' then c.toNat - 'a'.toNat + 10
  else c.toNat - 'A'.toNat + 10

def hexVal (ds : List Char) : Nat :=
  ds.foldl (fun a c => 16 * a + hexDigitVal c) 0

/-- Strip an optional sign, returning the sign factor and the rest. -/
def signSplit (s : List Char) : Int × List Char :=
  match s with
  | '-' :: r => (-1, r)
  | '+' :: r => (1, r)
  | _ => (1, s)

/-- JavaScript `parseInt(s)` (no radix argument): skip whitespace, optional
sign, then leading decimal digits (or a `0x`/`0X` hexadecimal literal);
`none` models the `NaN` result when no digit is found. -/
def jsParseInt (s : List Char) : Option Int :=
  let s1 := s.dropWhile isWS
  let p := signSplit s1
  match p.2 with
  | '0' :: c :: r =>
    if c = 'x' ∨ c = 'X' then
      let ds := r.takeWhile isHexDigit
      if ds = [] then none else some (p.1 * hexVal ds)
    else
      -- decimal: digits certainly start with the '0' just seen
      some (p.1 * decVal (('0' :: c :: r).takeWhile Char.isDigit))
  | rest =>
    let ds := rest.takeWhile Char.isDigit
    if ds = [] then none else some (p.1 * decVal ds)

/-- `10 ^ e` over ℚ, for an integer exponent. -/
def qpow10 (e : Int) : ℚ :=
  if 0 ≤ e then ((10 ^ e.toNat : Nat) : ℚ) else 1 / ((10 ^ (-e).toNat : Nat) : ℚ)

/-- JavaScript `parseFloat(s)`: skip whitespace, optional sign, a decimal
mantissa (digits, optionally with a fractional part), and an optional
`e`/`E` exponent whose digits may be absent (in which case it is ignored,
as `parseFloat` backtracks).  `none` models `NaN`.  The special `Infinity`
spellings are not modelled (no numeric IGES field uses them). -/
def jsParseFloat (s : List Char) : JSNum :=
  let s1 := s.dropWhile isWS
  let p := signSplit s1
  let ip := p.2.takeWhile Char.isDigit
  let s3 := p.2.dropWhile Char.isDigit
  let fq : List Char × List Char :=
    match s3 with
    | '.' :: r => (r.takeWhile Char.isDigit, r.dropWhile Char.isDigit)
    | _ => ([], s3)
  if ip = [] ∧ fq.1 = [] then none
  else
    let mant : ℚ := (decVal ip : ℚ) + (decVal fq.1 : ℚ) / ((10 ^ fq.1.length : Nat) : ℚ)
    let ex : Int :=
      match fq.2 with
      | c :: r =>
        if c = 'e' ∨ c = 'E' then
          let q := signSplit r
          let eds := q.2.takeWhile Char.isDigit
          if eds = [] then 0 else q.1 * (decVal eds : Int)
        else 0
      | [] => 0
    some ((p.1 : ℚ) * mant * qpow10 ex)

/-- Index of the first `'H'` in a token (JavaScript `indexOf("H")`). -/
def idxOfH : List Char → Option Nat
  | [] => none
  | c :: r => if c = 'H' then some 0 else (idxOfH r).map (· + 1)

/-- The `length` argument a JavaScript `substr` receives from a `parseInt`
result: `NaN` and negative values are clamped to `0`. -/
def jsLenArg : Option Int → Nat
  | none => 0
  | some k => k.toNat

/-- `parseIgesString` from the source: Hollerith decoding.  Finds the first
`H`, reads the digit count before it with `parseInt`, and returns that many
characters after the `H` (fewer when fewer are available); `none` when the
token has no `H`. -/
def parseIgesString (s : List Char) : Option (List Char) :=
  match idxOfH s with
  | none => none
  | some d => some (substrL s (d + 1) (jsLenArg (jsParseInt (s.take d))))

/-- The `replace(/D/g, "e")` rewrite in `parseIgesFloat`. -/
def replaceD (s : List Char) : List Char :=
  s.map (fun c => if c = 'D' then 'e' else c)

/-- `parseIgesFloat` from the source: rewrite the IGES `D` exponent marker
to `e`, then `parseFloat`. -/
def parseIgesFloat (p : List Char) : JSNum :=
  jsParseFloat (replaceD p)

/-- JavaScript `split` on a single-character separator: every occurrence
separates, empty pieces are kept, and the result is never empty. -/
def splitChar (c : Char) : List Char → List (List Char)
  | [] => [[]]
  | x :: xs =>
    if x = c then [] :: splitChar c xs
    else
      match splitChar c xs with
      | h :: t => (x :: h) :: t
      | [] => [[x]]

/-- Drop `sep` from the front of `s`, when it is there. -/
def dropPre : List Char → List Char → Option (List Char)
  | [], s => some s
  | _, [] => none
  | c :: cs, x :: xs => if c = x then dropPre cs xs else none

/-- Fuelled worker for `splitList`. -/
def splitListAux (sep : List Char) : Nat → List Char → List Char → List (List Char)
  | 0, acc, _ => [acc.reverse]
  | Nat.succ fuel, acc, s =>
    match s with
    | [] => [acc.reverse]
    | c :: rest =>
      match dropPre sep s with
      | some r => acc.reverse :: splitListAux sep fuel [] r
      | none => splitListAux sep fuel (c :: acc) rest

/-- JavaScript `split` on a (non-empty, possibly multi-character) separator
string: leftmost non-overlapping occurrences separate, empty pieces kept.
Used for the Global section, whose field delimiter is itself a parsed
string.  The fuel `s.length + 1` is enough for every step to consume at
least one character. -/
def splitList (sep s : List Char) : List (List Char) :=
  splitListAux sep (s.length + 1) [] s

/-! ## Data model: directory attributes, entities, primitives -/

/-- The `EntityAttribute` record filled by `parseDirection`; numeric fields
are `parseInt` results (`none` = `NaN`), `status` and `entityName` are raw
strings. -/
structure DirAttr where
  entityType : Option Int
  entityIndex : Option Int
  igesVersion : Option Int
  lineType : Option Int
  level : Option Int
  view : Option Int
  transMatrix : Option Int
  labelDisp : Option Int
  status : List Char
  sequenceNumber : Option Int
  lineWidth : Option Int
  color : Option Int
  paramLine : Option Int
  formNumber : Option Int
  entityName : List Char
  entitySub : Option Int
deriving DecidableEq, Repr

/-- An assembled IGES entity: the string `type` the synthesizer dispatches
on, the directory attributes, and the parameter values. -/
structure Entity where
  type : List Char
  attr : DirAttr
  params : List JSNum
deriving DecidableEq, Repr

/-- `Number.prototype.toString` for a `parseInt` result (`NaN` included). -/
def jsIntToStr : Option Int → List Char
  | none => chars "NaN"
  | some n => (toString n).toList

/-- The attribute record of a freshly constructed `new Entity()`:
`{ entityType: 0 }`, every other field left unset (all of them are
assigned before use, so the placeholder values below are never observed). -/
def defaultDirAttr : DirAttr :=
  ⟨some 0, none, none, none, none, none, none, none, [], none,
   none, none, none, none, [], none⟩

/-- The `Entity` constructor: note `type` is rendered from the attribute's
`entityType` at construction time. -/
def mkEntity (a : DirAttr) : Entity :=
  ⟨jsIntToStr a.entityType, a, []⟩

/-- The body of the `parseDirection` loop for one 160-character window.
The source first runs `new Entity()` (so `type` is `"0"`, rendered from the
default attribute *before* the directory fields are assigned) and then
mutates `entity.attr` field by field with fixed-column `parseInt` reads. -/
def decodeDirRecord (item : List Char) : Entity :=
  let e := mkEntity defaultDirAttr
  { e with attr :=
    { entityType := jsParseInt (substrL item 0 8)
      entityIndex := jsParseInt (substrL item 8 8)
      igesVersion := jsParseInt (substrL item 16 8)
      lineType := jsParseInt (substrL item 24 8)
      level := jsParseInt (substrL item 32 8)
      view := jsParseInt (substrL item 40 8)
      transMatrix := jsParseInt (substrL item 48 8)
      labelDisp := jsParseInt (substrL item 56 8)
      status := substrL item 64 8
      sequenceNumber := jsParseInt (substrL item 73 7)
      lineWidth := jsParseInt (substrL item 88 8)
      color := jsParseInt (substrL item 96 8)
      paramLine := jsParseInt (substrL item 104 8)
      formNumber := jsParseInt (substrL item 112 8)
      entityName := trimL (substrL item 136 8)
      entitySub := jsParseInt (substrL item 144 8) } }

/-- Fuelled worker for `parseDirection` (the fuel only bounds the
recursion; `data.length + 1` always suffices). -/
def parseDirectionAux : Nat → List Char → List Entity
  | 0, _ => []
  | Nat.succ fuel, data =>
    match data with
    | [] => []
    | _ :: _ => decodeDirRecord (data.take 160) :: parseDirectionAux fuel (data.drop 160)

/-- `parseDirection` from the source: iterate the Directory buffer in
160-character steps (`data.substr(i, 160)`), one entity per window. -/
def parseDirection (data : List Char) : List Entity :=
  parseDirectionAux (data.length + 1) data

/-- The per-index update of `parseParameter`: the loop walks the split
segments, and for each index with an existing entity replaces its `type`
by the shifted leading token (`shift() || ""`) and its `params` by the
remaining tokens mapped through `parseIgesFloat`. -/
def applyParams : List (List (List Char)) → List Entity → List Entity
  | [], es => es
  | _, [] => []
  | toks :: rest, e :: es =>
    { e with type := toks.headD [], params := toks.tail.map parseIgesFloat }
      :: applyParams rest es

/-- `parseParameter` from the source.  Note the splits use the literal
characters `';'` and `','`, not the delimiters stored by `parseGlobal`. -/
def parseParameter (data : List Char) (entities : List Entity) : List Entity :=
  applyParams (((splitChar ';' data).dropLast).map (splitChar ',')) entities

/-- The delimiters determined by `parseGlobal`. -/
structure GlobalDelims where
  fieldDelimiter : List Char
  termDelimiter : List Char
deriving DecidableEq, Repr

/-- JavaScript `x || dflt` for an optional string: `undefined` and the
empty string both fall back. -/
def jsOrStr (x : Option (List Char)) (dflt : List Char) : List Char :=
  match x with
  | some s => if s = [] then dflt else s
  | none => dflt

/-- The delimiter logic of `parseGlobal`: when the buffer does not start
with `','`, the field delimiter is re-parsed from the leading Hollerith
token and the leading field is spliced away; the terminator is the
Hollerith value of `fields[1]`.  (The remaining `parseGlobal` assignments
fill descriptive metadata that nothing downstream reads; in particular the
delimiters themselves are never consulted by `parseParameter`.) -/
def parseGlobal (data : List Char) : GlobalDelims :=
  let fd :=
    if data.head? ≠ some ',' then jsOrStr (parseIgesString data) [','] else [',']
  let fields := splitList fd data
  let fields := if data.head? ≠ some ',' then fields.drop 1 else fields
  let td := jsOrStr (parseIgesString ((fields.get? 1).getD [])) [';']
  ⟨fd, td⟩

/-- The four counts read by `parseTerminate`. -/
structure TermCounts where
  lineNum_S : Option Int
  lineNum_G : Option Int
  lineNum_D : Option Int
  lineNum_P : Option Int
deriving DecidableEq, Repr

/-- The fixed-column reads of `parseTerminate`. -/
def parseTerminate (data : List Char) : TermCounts :=
  ⟨jsParseInt (substrL data 1 7), jsParseInt (substrL data 9 7),
   jsParseInt (substrL data 17 7), jsParseInt (substrL data 25 7)⟩

/-- The throw condition of `parseTerminate`:
`this.lineNum_D && this.entities.length !== this.lineNum_D / 2`.
`NaN` and `0` are falsy, so the check is skipped for them; both sides of
`!==` are exact in doubles here, so `n !== d / 2` is `2 * n ≠ d`. -/
def terminateFails (t : TermCounts) (n : Nat) : Bool :=
  match t.lineNum_D with
  | none => false
  | some d => if d = 0 then false else if 2 * (n : Int) = d then false else true

/-! ## Geometry synthesizer -/

/-- A primitive added to the returned group.  `lineMesh` is a `THREE.Line`
over the listed points, `pointsMesh` a `THREE.Points` over the listed
positions; `arcMesh` records the inputs handed to the external
`EllipseCurve` sampler (center, start and end point, per `drawCArc`),
whose trigonometric sampling is the scene-graph collaborator's concern. -/
inductive Prim where
  | lineMesh (pts : List (JSNum × JSNum × JSNum))
  | pointsMesh (pts : List (JSNum × JSNum × JSNum))
  | arcMesh (cx cy sx sy ex ey : JSNum)
deriving DecidableEq, Repr

/-- `entityParams[i]` coerced with `Number`: a missing index is
`undefined`, which coerces to `NaN`. -/
def paramAt (e : Entity) (i : Nat) : JSNum :=
  (e.params.get? i).getD none

/-- Number of iterations of `for (let i = 0; i < bound; i++)` for a
JavaScript `bound`: none when the bound is `NaN` or non-positive,
otherwise the ceiling. -/
def jsLoopCount : JSNum → Nat
  | none => 0
  | some q => if q ≤ 0 then 0 else q.ceil.toNat

/-- JavaScript `+` on numbers (`NaN` propagates). -/
def jadd : JSNum → JSNum → JSNum
  | some a, some b => some (a + b)
  | _, _ => none

/-- JavaScript `-` on numbers. -/
def jsub : JSNum → JSNum → JSNum
  | some a, some b => some (a - b)
  | _, _ => none

/-- JavaScript `*` on numbers. -/
def jmul : JSNum → JSNum → JSNum
  | some a, some b => some (a * b)
  | _, _ => none

/-- `entityParams[q]` for a computed JavaScript index: only a non-negative
integer hits an element; every other index (fractional, negative, `NaN`)
reads `undefined`, which `Number` turns into `NaN`. -/
def jsIndex (e : Entity) : JSNum → JSNum
  | none => none
  | some q => if q.den = 1 ∧ 0 ≤ q.num then paramAt e q.num.toNat else none

/-- `drawCArc` (type 100): one `Line` mesh sampled from an `EllipseCurve`
built from center `(params[1], params[2])`, start `(params[3], params[4])`
and end `(params[5], params[6])`. -/
def drawCArc (e : Entity) : Prim :=
  Prim.arcMesh (paramAt e 1) (paramAt e 2) (paramAt e 3) (paramAt e 4)
    (paramAt e 5) (paramAt e 6)

/-- `drawPath` (type 106): form dispatch on `formNumber?.toString()`.
Forms 12, 40 and 63 fill the point list; any other form only logs — but the
function still builds and adds the (then empty) `Line` mesh, so the pair's
second component counts the diagnostic and the mesh is always produced. -/
def drawPath (e : Entity) : List Prim × Nat :=
  let n1 := jsLoopCount (paramAt e 1)
  if e.attr.formNumber = some 12 then
    ([Prim.lineMesh ((List.range n1).map fun i =>
        (paramAt e (2 + 3 * i), paramAt e (3 + 3 * i), paramAt e (4 + 3 * i)))], 0)
  else if e.attr.formNumber = some 40 then
    ([Prim.lineMesh ((List.range n1).map fun i =>
        (paramAt e (3 + 2 * i), paramAt e (4 + 2 * i), paramAt e 2))], 0)
  else if e.attr.formNumber = some 63 then
    ([Prim.lineMesh ((List.range n1).map fun i =>
        (paramAt e (3 + 2 * i), paramAt e (4 + 2 * i), some 0))], 0)
  else
    ([Prim.lineMesh []], 1)

/-- `drawLine` (type 110): forms 0 and 2 take the two endpoints from the
first six params; the default case draws them as well when the form number
is `NaN`, and otherwise only logs — but, as in `drawPath`, the (empty)
`Line` mesh is still added. -/
def drawLine (e : Entity) : List Prim × Nat :=
  let p2 := [(paramAt e 0, paramAt e 1, paramAt e 2),
             (paramAt e 3, paramAt e 4, paramAt e 5)]
  if e.attr.formNumber = some 0 ∨ e.attr.formNumber = some 2 then
    ([Prim.lineMesh p2], 0)
  else if e.attr.formNumber = none then
    ([Prim.lineMesh p2], 0)
  else
    ([Prim.lineMesh []], 1)

/-- `drawPoint` (type 116): one `Points` mesh holding the single position
built from the first three params. -/
def drawPoint (e : Entity) : Prim :=
  Prim.pointsMesh [(paramAt e 0, paramAt e 1, paramAt e 2)]

/-- `drawTransMatrix` (type 124): no mesh; form 0 is a silent TODO, every
other form logs a diagnostic. -/
def drawTransMatrix (e : Entity) : Nat :=
  if e.attr.formNumber = some 0 then 0 else 1

/-- `drawRBSplineCurve` (type 126): `K = params[0]`, `M = params[1]`,
`N = 1 + K - M`, `A = N + 2 * M`; forms 0/1 draw `K + 1` points at computed
indices `i * 3 + 8 + A + K` (and `+9`, `+10`); other forms leave the point
list empty.  The `Line` mesh is added in every case, with no diagnostic. -/
def drawRBSplineCurve (e : Entity) : Prim :=
  let K := paramAt e 0
  let M := paramAt e 1
  let N := jsub (jadd (some 1) K) M
  let A := jadd N (jmul (some 2) M)
  if e.attr.formNumber = some 0 ∨ e.attr.formNumber = some 1 then
    Prim.lineMesh ((List.range (jsLoopCount (jadd K (some 1)))).map fun i =>
      (jsIndex e (jadd (jadd (some ((3 * i + 8 : ℕ) : ℚ)) A) K),
       jsIndex e (jadd (jadd (some ((3 * i + 9 : ℕ) : ℚ)) A) K),
       jsIndex e (jadd (jadd (some ((3 * i + 10 : ℕ) : ℚ)) A) K)))
  else
    Prim.lineMesh []

/-- The entity-processing `switch`: primitives added to the group and
diagnostics logged, per entity.  Types recognised but unimplemented are
distinct no-op cases; an unrecognised type logs one diagnostic. -/
def synthEntity (e : Entity) : List Prim × Nat :=
  if e.type = chars "100" then ([drawCArc e], 0)
  else if e.type = chars "102" then ([], 0)
  else if e.type = chars "106" then drawPath e
  else if e.type = chars "108" then ([], 0)
  else if e.type = chars "110" then drawLine e
  else if e.type = chars "116" then ([drawPoint e], 0)
  else if e.type = chars "120" then ([], 0)
  else if e.type = chars "122" then ([], 0)
  else if e.type = chars "124" then ([], drawTransMatrix e)
  else if e.type = chars "126" then ([drawRBSplineCurve e], 0)
  else if e.type = chars "128" then ([], 0)
  else if e.type = chars "142" then ([], 0)
  else if e.type = chars "144" then ([], 0)
  else if e.type = chars "212" then ([], 0)
  else if e.type = chars "214" then ([], 0)
  else if e.type = chars "216" then ([], 0)
  else if e.type = chars "314" then ([], 0)
  else if e.type = chars "402" then ([], 0)
  else if e.type = chars "406" then ([], 0)
  else ([], 1)

/-- Process all entities in order: the group's children in order, and the
total synthesis diagnostics. -/
def synthAll (es : List Entity) : List Prim × Nat :=
  (((es.map synthEntity).map Prod.fst).flatten, ((es.map synthEntity).map Prod.snd).sum)

/-! ## Section splitter and top-level parse -/

/-- The five section buffers plus the count of skipped-line /
unknown-section diagnostics. -/
structure SplitState where
  startSec : List Char
  globalSec : List Char
  dirSec : List Char
  paramSec : List Char
  termSec : List Char
  diags : Nat
deriving DecidableEq, Repr

def initSections : SplitState := ⟨[], [], [], [], [], 0⟩

/-- One iteration of the line-classification loop: short lines are skipped
with a diagnostic; otherwise the line is truncated to 80 characters, the
tag at index 72 dispatches to a buffer (Directory lines kept whole,
Start/Global/Terminate trimmed to 72 columns, Parameter trimmed to 64),
and unknown tags are skipped with a diagnostic. -/
def stepLine (st : SplitState) (l : List Char) : SplitState :=
  if l.length < 73 then { st with diags := st.diags + 1 }
  else
    let line := l.take 80
    match line.get? 72 with
    | none => { st with diags := st.diags + 1 }
    | some tag =>
      if tag = 'S' then { st with startSec := st.startSec ++ trimL (line.take 72) }
      else if tag = 'G' then { st with globalSec := st.globalSec ++ trimL (line.take 72) }
      else if tag = 'D' then { st with dirSec := st.dirSec ++ line }
      else if tag = 'P' then { st with paramSec := st.paramSec ++ trimL (line.take 64) }
      else if tag = 'T' then { st with termSec := st.termSec ++ trimL (line.take 72) }
      else { st with diags := st.diags + 1 }

def classifyLines (ls : List (List Char)) : SplitState :=
  ls.foldl stepLine initSections

/-- `data.split(/\r?\n/)`: split on `'\n'` and strip the single `'\r'`
that belonged to a `"\r\n"` pair (i.e. from every piece that is followed
by another piece). -/
def jsSplitNL (data : List Char) : List (List Char) :=
  let ps := splitChar '\n' data
  ps.enum.map fun pi =>
    if pi.1 + 1 = ps.length then pi.2
    else if pi.2.getLast? = some '\r' then pi.2.dropLast else pi.2

/-- The physical lines the parser iterates: newline split, empty lines
dropped. -/
def jsLines (data : List Char) : List (List Char) :=
  (jsSplitNL data).filter (fun l => 0 < l.length)

/-- The completed parse outcome: the assembled entities, the group's
children in order, and the number of diagnostics logged. -/
structure ParseResult where
  entities : List Entity
  children : List Prim
  diags : Nat
deriving DecidableEq, Repr

/-- `parseIges`: split lines into sections, run the five section parsers
(the Start parser only stores the comment and the Global parser's
delimiters are never consulted downstream, mirroring the source), assemble
entities, apply the Terminate consistency check — a `throw` is the single
error outcome, with no partial result — and synthesize the group. -/
def parseIges (data : List Char) : Except (List Char) ParseResult :=
  let st := classifyLines (jsLines data)
  let _gl := parseGlobal st.globalSec
  let ents := parseParameter st.paramSec (parseDirection st.dirSec)
  if terminateFails (parseTerminate st.termSec) ents.length then
    Except.error (chars "ERROR: Inconsistent entity count")
  else
    let r := synthAll ents
    Except.ok ⟨ents, r.1, st.diags + r.2⟩

/-! ## Concrete inputs used by witnesses and counterexamples -/

/-- A physical Directory line: 72 blank data columns, tag `D`, sequence 1. -/
def dirLine1 : List Char := List.replicate 72 ' ' ++ chars "D0000001"

/-- A physical Directory line: 72 blank data columns, tag `D`, sequence 2. -/
def dirLine2 : List Char := List.replicate 72 ' ' ++ chars "D0000002"

/-- A Terminate line declaring 0 Directory lines. -/
def termLineZeroD : List Char :=
  chars "S0000000G0000001D0000000P0000000" ++ List.replicate 40 ' ' ++ chars "T0000001"

/-- A file with one Directory entry (two physical lines) whose Terminate
line declares a Directory line count of `0`. -/
def fileZeroDeclared : List Char :=
  dirLine1 ++ '\n' :: dirLine2 ++ '\n' :: termLineZeroD

/-- A Global line declaring field delimiter `|` and terminator `#`
(Hollerith `1H|` and `1H#`, separated by the declared `|`). -/
def globalLinePipe : List Char :=
  chars "1H||1H#|" ++ List.replicate 64 ' ' ++ chars "G0000001"

/-- A Parameter line written with the delimiters declared by
`globalLinePipe`: one segment `116|1.0|2.0|3.0` closed by `#`. -/
def paramLinePipe : List Char :=
  chars "116|1.0|2.0|3.0#" ++ List.replicate 56 ' ' ++ chars "P0000001"

/-- A Terminate line declaring 2 Directory lines and 1 Parameter line. -/
def termLineTwoD : List Char :=
  chars "S0000000G0000001D0000002P0000001" ++ List.replicate 40 ' ' ++ chars "T0000001"

/-- A complete file whose Global section overrides both delimiters and
whose Parameter section uses the overridden delimiters. -/
def fileOverriddenDelims : List Char :=
  globalLinePipe ++ '\n' :: dirLine1 ++ '\n' :: dirLine2 ++ '\n' ::
    paramLinePipe ++ '\n' :: termLineTwoD

/-- A synthetically constructed 160-character Directory record with known
values at every documented field offset. -/
def dirRecordSynth : List Char :=
  chars "     116       1       0       0       0       0       0       000000000D      1" ++
  chars "               2       3       5       1                   NAME        7D      2"

/-- A type-106 entity with an unsupported form number (99). -/
def entity106Form99 : Entity :=
  ⟨chars "106", { defaultDirAttr with formNumber := some 99 }, []⟩

/-- A type-116 entity with params `[10, 20, 30]`. -/
def entityPoint : Entity :=
  ⟨chars "116", defaultDirAttr, [some 10, some 20, some 30]⟩

/-- A type-126 (form 0) entity with `K = 1`, `M = 1` and control points at
the computed offsets (`A = 3`, coordinates at indices 12..17). -/
def entitySpline : Entity :=
  ⟨chars "126", { defaultDirAttr with formNumber := some 0 },
   [some 1, some 1, some 0, some 0, some 1, some 1, some 1, some 1,
    some 1, some 1, some 1, some 1,
    some 100, some 200, some 300, some 110, some 210, some 310]⟩

/-! ## Helper lemmas -/

theorem idxOfH_of_not_mem (s : List Char) (h : 'H' ∉ s) : idxOfH s = none := by
  induction s with
  | nil => rfl
  | cons c r ih =>
    simp only [List.mem_cons, not_or] at h
    simp [idxOfH, Ne.symm h.1, ih h.2]

theorem idxOfH_append (pre post : List Char) (h : 'H' ∉ pre) :
    idxOfH (pre ++ 'H' :: post) = some pre.length := by
  induction pre with
  | nil => simp [idxOfH]
  | cons c r ih =>
    simp only [List.mem_cons, not_or] at h
    simp [idxOfH, Ne.symm h.1, ih h.2]

theorem replaceD_of_not_mem (s : List Char) (h : 'D' ∉ s) : replaceD s = s := by
  induction s with
  | nil => rfl
  | cons c r ih =>
    simp only [List.mem_cons, not_or] at h
    simp only [replaceD, List.map_cons] at ih ⊢
    rw [if_neg (Ne.symm h.1), ih h.2]

theorem jsLoopCount_natCast (n : ℕ) : jsLoopCount (some ((n : ℕ) : ℚ)) = n := by
  show (if ((n : ℚ)) ≤ 0 then 0 else ((n : ℚ)).ceil.toNat) = n
  rcases Nat.eq_zero_or_pos n with h | h
  · subst h
    norm_num
  · rw [if_neg (by push_neg; exact_mod_cast h)]
    simp [Rat.ceil, Rat.den_natCast, Rat.num_natCast]

theorem jsIndex_natCast (e : Entity) (n : ℕ) :
    jsIndex e (some ((n : ℕ) : ℚ)) = paramAt e n := by
  show (if ((n : ℚ)).den = 1 ∧ 0 ≤ ((n : ℚ)).num then paramAt e ((n : ℚ)).num.toNat
        else none) = paramAt e n
  rw [if_pos ⟨Rat.den_natCast n, by simp⟩]
  simp

/-! ## Claim theorems -/

/-- C7: Hollerith decoding.  A token with no `H` decodes to `none`
(distinguishable from the empty string); a token `<digits>H<rest>` with a
parseable non-negative digit count `n` decodes to the `n` characters after
the first `H`, clamped to the available characters (best-effort
substring). -/
theorem hollerith_decode :
    (∀ s : List Char, 'H' ∉ s → parseIgesString s = none) ∧
    (∀ (pre post : List Char) (n : Int), 'H' ∉ pre → jsParseInt pre = some n →
      0 ≤ n → parseIgesString (pre ++ 'H' :: post) = some (post.take n.toNat)) := by
  constructor
  · intro s h
    simp [parseIgesString, idxOfH_of_not_mem s h]
  · intro pre post n hmem hint _
    have hidx := idxOfH_append pre post hmem
    simp only [parseIgesString, hidx]
    have htake : (pre ++ 'H' :: post).take pre.length = pre :=
      List.take_left pre ('H' :: post)
    have hdrop : (pre ++ 'H' :: post).drop (pre.length + 1) = post := by
      have : pre ++ 'H' :: post = (pre ++ ['H']) ++ post := by simp
      rw [this]
      have hl : (pre ++ ['H']).length = pre.length + 1 := by simp
      rw [← hl]
      exact List.drop_left (pre ++ ['H']) post
    rw [htake, hint]
    simp [substrL, hdrop, jsLenArg]

/-- C7 witness: `"4HABCD"` decodes to `"ABCD"`. -/
theorem hollerith_decode_witness :
    parseIgesString (chars "4HABCD") = some (chars "ABCD") := by
  have h := hollerith_decode.2 (chars "4") (chars "ABCD") 4 (by decide) (by decide)
    (by decide)
  have e : chars "4HABCD" = chars "4" ++ 'H' :: chars "ABCD" := by decide
  rw [e, h]
  decide

/-- C8: float decoding rewrites the `D` exponent marker to `e` before
parsing: `"1.5D+02"` decodes to `150`, `"1.5e+02"` (already standard) is
untouched by the rewrite and also decodes to `150`. -/
theorem float_exponent_rewrite :
    parseIgesFloat (chars "1.5D+02") = some 150 ∧
    parseIgesFloat (chars "1.5e+02") = some 150 ∧
    (∀ s : List Char, 'D' ∉ s → replaceD s = s) := by
  refine ⟨?_, ?_, replaceD_of_not_mem⟩
  · with_unfolding_all rfl
  · with_unfolding_all rfl

/-- C8 witness: the rewrite leaves the standard-form token unchanged. -/
theorem float_exponent_rewrite_witness :
    replaceD (chars "1.5e+02") = chars "1.5e+02" :=
  float_exponent_rewrite.2.2 (chars "1.5e+02") (by decide)

/-- C9: every entity dispatched as type 116 produces exactly one
point-cloud primitive holding the single position built from its first
three parameters, and no diagnostic. -/
theorem point_synth (e : Entity) (h : e.type = chars "116") :
    synthEntity e = ([Prim.pointsMesh [(paramAt e 0, paramAt e 1, paramAt e 2)]], 0) := by
  simp only [synthEntity, h, if_true]
  rfl

/-- C9 witness: params `[10, 20, 30]` yield one point at `(10, 20, 30)`. -/
theorem point_synth_witness :
    synthEntity entityPoint = ([Prim.pointsMesh [(some 10, some 20, some 30)]], 0) := by
  rw [point_synth entityPoint rfl]
  decide

/-- C3 counterexample: a type-106 entity with form 99 logs a diagnostic
but still contributes a child to the group — an empty `Line` mesh — so it
is false that such an entity contributes no child. -/
theorem unsupported_form_adds_empty_child :
    (synthEntity entity106Form99).1 ≠ [] ∧ (synthEntity entity106Form99).2 = 1 := by
  exact ⟨by decide, by decide⟩

/-- C3 amended: a type-106 entity whose form number is not 12, 40 or 63,
or a type-110 entity whose form number is a number other than 0 or 2,
produces one diagnostic and contributes exactly one child whose geometry
holds no points (an empty line mesh), rather than no child. -/
theorem unsupported_form_diag_empty_line (e : Entity)
    (h : (e.type = chars "106" ∧
            ∀ n : Int, e.attr.formNumber = some n → n ≠ 12 ∧ n ≠ 40 ∧ n ≠ 63) ∨
         (e.type = chars "110" ∧
            ∃ n : Int, e.attr.formNumber = some n ∧ n ≠ 0 ∧ n ≠ 2)) :
    synthEntity e = ([Prim.lineMesh []], 1) := by
  rcases h with ⟨ht, hf⟩ | ⟨ht, n, hn, h0, h2⟩
  · have hd : synthEntity e = drawPath e := by
      simp only [synthEntity, ht]
      rfl
    rw [hd]
    unfold drawPath
    rcases hfm : e.attr.formNumber with _ | m
    · simp [hfm]
    · have hm := hf m hfm
      simp [hfm, hm.1, hm.2.1, hm.2.2]
  · have hd : synthEntity e = drawLine e := by
      simp only [synthEntity, ht]
      rfl
    rw [hd]
    unfold drawLine
    simp [hn, h0, h2]

/-- C3 witness: the amended statement at the concrete form-99 path
entity. -/
theorem unsupported_form_diag_empty_line_witness :
    synthEntity entity106Form99 = ([Prim.lineMesh []], 1) := by
  refine unsupported_form_diag_empty_line entity106Form99 (Or.inl ⟨rfl, ?_⟩)
  intro n hn
  have h99 : entity106Form99.attr.formNumber = some 99 := rfl
  rw [h99] at hn
  cases Option.some.inj hn
  refine ⟨by decide, by decide, by decide⟩

/-- C6: a type-126 entity with form 0 or 1, `K = params[0]` and
`M = params[1]` non-negative integers, and `A = (1 + K - M) + 2M`,
produces one polyline through exactly `K + 1` points whose `i`-th point
has coordinates `(params[3i+8+A+K], params[3i+9+A+K], params[3i+10+A+K])`,
with no diagnostic. -/
theorem rbspline_points (e : Entity) (k m a : ℕ)
    (ht : e.type = chars "126")
    (hf : e.attr.formNumber = some 0 ∨ e.attr.formNumber = some 1)
    (h0 : paramAt e 0 = some ((k : ℕ) : ℚ))
    (h1 : paramAt e 1 = some ((m : ℕ) : ℚ))
    (ha : (a : ℤ) = 1 + (k : ℤ) - (m : ℤ) + 2 * (m : ℤ)) :
    synthEntity e = ([Prim.lineMesh ((List.range (k + 1)).map fun i =>
      (paramAt e (3 * i + 8 + a + k), paramAt e (3 * i + 9 + a + k),
       paramAt e (3 * i + 10 + a + k)))], 0) := by
  have hd : synthEntity e = ([drawRBSplineCurve e], 0) := by
    simp only [synthEntity, ht]
    rfl
  rw [hd]
  unfold drawRBSplineCurve
  rw [h0, h1, if_pos hf]
  simp only [jadd, jsub, jmul]
  have ha' : (a : ℚ) = 1 + (k : ℚ) - (m : ℚ) + 2 * (m : ℚ) := by exact_mod_cast ha
  have hk1 : (1 : ℚ) + (k : ℚ) = ((k + 1 : ℕ) : ℚ) := by push_cast; ring
  have hcnt : (k : ℚ) + 1 = ((k + 1 : ℕ) : ℚ) := by push_cast; ring
  rw [hcnt, jsLoopCount_natCast]
  refine congrArg (fun l => ([Prim.lineMesh l], 0)) ?_
  refine List.map_congr_left fun i _ => ?_
  have hv : ∀ c : ℕ, ((3 * i + c : ℕ) : ℚ) + (1 + (k : ℚ) - (m : ℚ) + 2 * (m : ℚ))
      + (k : ℚ) = ((3 * i + c + a + k : ℕ) : ℚ) := by
    intro c
    rw [← ha']
    push_cast
    ring
  rw [hv 8, hv 9, hv 10, jsIndex_natCast, jsIndex_natCast, jsIndex_natCast]

/-- C6 witness: `K = 1`, `M = 1`, `A = 3`; the two points are read at
indices 12..14 and 15..17. -/
theorem rbspline_points_witness :
    synthEntity entitySpline =
      ([Prim.lineMesh [(some 100, some 200, some 300),
                       (some 110, some 210, some 310)]], 0) := by
  rw [rbspline_points entitySpline 1 1 3 rfl (Or.inl rfl) (by norm_num [paramAt, entitySpline])
    (by norm_num [paramAt, entitySpline]) (by norm_num)]
  decide

theorem substrL_substrL (data : List Char) (s o l : Nat) (h : o + l ≤ 160) :
    substrL (substrL data s 160) o l = substrL data (s + o) l := by
  simp only [substrL]
  rw [List.drop_take, List.drop_drop, List.take_take]
  congr 1
  omega

theorem parseDirectionAux_congr (f1 : Nat) : ∀ (f2 : Nat) (data : List Char),
    data.length < f1 → data.length < f2 →
    parseDirectionAux f1 data = parseDirectionAux f2 data := by
  induction f1 with
  | zero => intro f2 data h1 _; omega
  | succ f ih =>
    intro f2 data h1 h2
    cases data with
    | nil =>
      cases f2 with
      | zero => omega
      | succ f2' => rfl
    | cons c r =>
      cases f2 with
      | zero => omega
      | succ f2' =>
        show decodeDirRecord ((c :: r).take 160) :: parseDirectionAux f ((c :: r).drop 160)
           = decodeDirRecord ((c :: r).take 160) :: parseDirectionAux f2' ((c :: r).drop 160)
        congr 1
        apply ih <;> simp only [List.length_drop, List.length_cons] at * <;> omega

theorem parseDirection_eq (data : List Char) :
    parseDirection data =
      match data with
      | [] => []
      | _ :: _ => decodeDirRecord (data.take 160) :: parseDirection (data.drop 160) := by
  cases data with
  | nil => rfl
  | cons c r =>
    show parseDirectionAux ((c :: r).length + 1) (c :: r) = _
    have h1 : parseDirectionAux ((c :: r).length + 1) (c :: r)
        = decodeDirRecord ((c :: r).take 160)
            :: parseDirectionAux ((c :: r).length) ((c :: r).drop 160) := rfl
    rw [h1]
    congr 1
    apply parseDirectionAux_congr <;> simp only [List.length_drop, List.length_cons] <;> omega

theorem parseDirection_get?_eq (k : Nat) : ∀ data : List Char,
    (parseDirection data).get? k =
      if data.length ≤ 160 * k then none
      else some (decodeDirRecord (substrL data (160 * k) 160)) := by
  induction k with
  | zero =>
    intro data
    rw [parseDirection_eq]
    cases data with
    | nil => simp
    | cons c r =>
      rw [if_neg (by simp)]
      simp [substrL]
  | succ k ih =>
    intro data
    rw [parseDirection_eq]
    cases data with
    | nil => simp
    | cons c r =>
      show (parseDirection ((c :: r).drop 160)).get? k = _
      rw [ih]
      by_cases hle : (c :: r).length ≤ 160 * (k + 1)
      · rw [if_pos (by simp only [List.length_drop, List.length_cons] at *; omega),
          if_pos hle]
      · rw [if_neg (by simp only [List.length_drop, List.length_cons] at *; omega),
          if_neg hle]
        congr 1
        simp only [substrL]
        rw [List.drop_drop]
        have h160 : 160 + 160 * k = 160 * (k + 1) := by ring
        rw [h160]

theorem decodeDirRecord_attr (data : List Char) (s : Nat) :
    (decodeDirRecord (substrL data s 160)).attr =
      { entityType := jsParseInt (substrL data s 8)
        entityIndex := jsParseInt (substrL data (s + 8) 8)
        igesVersion := jsParseInt (substrL data (s + 16) 8)
        lineType := jsParseInt (substrL data (s + 24) 8)
        level := jsParseInt (substrL data (s + 32) 8)
        view := jsParseInt (substrL data (s + 40) 8)
        transMatrix := jsParseInt (substrL data (s + 48) 8)
        labelDisp := jsParseInt (substrL data (s + 56) 8)
        status := substrL data (s + 64) 8
        sequenceNumber := jsParseInt (substrL data (s + 73) 7)
        lineWidth := jsParseInt (substrL data (s + 88) 8)
        color := jsParseInt (substrL data (s + 96) 8)
        paramLine := jsParseInt (substrL data (s + 104) 8)
        formNumber := jsParseInt (substrL data (s + 112) 8)
        entityName := trimL (substrL data (s + 136) 8)
        entitySub := jsParseInt (substrL data (s + 144) 8) } := by
  have h0 := substrL_substrL data s 0 8 (by omega)
  rw [Nat.add_zero] at h0
  have h8 := substrL_substrL data s 8 8 (by omega)
  have h16 := substrL_substrL data s 16 8 (by omega)
  have h24 := substrL_substrL data s 24 8 (by omega)
  have h32 := substrL_substrL data s 32 8 (by omega)
  have h40 := substrL_substrL data s 40 8 (by omega)
  have h48 := substrL_substrL data s 48 8 (by omega)
  have h56 := substrL_substrL data s 56 8 (by omega)
  have h64 := substrL_substrL data s 64 8 (by omega)
  have h73 := substrL_substrL data s 73 7 (by omega)
  have h88 := substrL_substrL data s 88 8 (by omega)
  have h96 := substrL_substrL data s 96 8 (by omega)
  have h104 := substrL_substrL data s 104 8 (by omega)
  have h112 := substrL_substrL data s 112 8 (by omega)
  have h136 := substrL_substrL data s 136 8 (by omega)
  have h144 := substrL_substrL data s 144 8 (by omega)
  unfold decodeDirRecord mkEntity
  rw [h0, h8, h16, h24, h32, h40, h48, h56, h64, h73, h88, h96, h104, h112, h136, h144]

/-- C5: the Directory buffer is decoded by iterating fixed 160-character
windows in order — the `k`-th record exists exactly when the `k`-th window
starts inside the buffer — and every field of the `k`-th record is the
fixed-column extraction at the documented byte offset (absolute offsets
`160k + o`, including the trimmed entity name). -/
theorem directory_fixed_columns (data : List Char) (k : Nat) :
    (((parseDirection data).get? k).isSome ↔ 160 * k < data.length) ∧
    (∀ e, (parseDirection data).get? k = some e →
      e.attr =
        { entityType := jsParseInt (substrL data (160 * k) 8)
          entityIndex := jsParseInt (substrL data (160 * k + 8) 8)
          igesVersion := jsParseInt (substrL data (160 * k + 16) 8)
          lineType := jsParseInt (substrL data (160 * k + 24) 8)
          level := jsParseInt (substrL data (160 * k + 32) 8)
          view := jsParseInt (substrL data (160 * k + 40) 8)
          transMatrix := jsParseInt (substrL data (160 * k + 48) 8)
          labelDisp := jsParseInt (substrL data (160 * k + 56) 8)
          status := substrL data (160 * k + 64) 8
          sequenceNumber := jsParseInt (substrL data (160 * k + 73) 7)
          lineWidth := jsParseInt (substrL data (160 * k + 88) 8)
          color := jsParseInt (substrL data (160 * k + 96) 8)
          paramLine := jsParseInt (substrL data (160 * k + 104) 8)
          formNumber := jsParseInt (substrL data (160 * k + 112) 8)
          entityName := trimL (substrL data (160 * k + 136) 8)
          entitySub := jsParseInt (substrL data (160 * k + 144) 8) }) := by
  constructor
  · rw [parseDirection_get?_eq]
    by_cases h : data.length ≤ 160 * k
    · rw [if_pos h]
      simp
      omega
    · rw [if_neg h]
      simp
      omega
  · intro e he
    rw [parseDirection_get?_eq] at he
    by_cases h : data.length ≤ 160 * k
    · rw [if_pos h] at he
      cases he
    · rw [if_neg h] at he
      have hrec := Option.some.inj he
      rw [← hrec]
      exact decodeDirRecord_attr data (160 * k)

/-- C5 witness: the synthetically constructed 160-character record decodes
to exactly the planted field values. -/
theorem directory_fixed_columns_witness :
    ((parseDirection dirRecordSynth).get? 0).map Entity.attr =
      some ⟨some 116, some 1, some 0, some 0, some 0, some 0, some 0, some 0,
            chars "00000000", some 1, some 2, some 3, some 5, some 1,
            chars "NAME", some 7⟩ := by
  rcases hg : (parseDirection dirRecordSynth).get? 0 with _ | e
  · have hs := (directory_fixed_columns dirRecordSynth 0).1
    rw [hg] at hs
    exact absurd (hs.mpr (by decide)) (by simp)
  · have ha := (directory_fixed_columns dirRecordSynth 0).2 e hg
    rw [Option.map_some', ha]
    decide

theorem applyParams_length (segs : List (List (List Char))) : ∀ ents : List Entity,
    (applyParams segs ents).length = ents.length := by
  induction segs with
  | nil => intro ents; cases ents <;> rfl
  | cons s ss ih =>
    intro ents
    cases ents with
    | nil => rfl
    | cons e es => simp [applyParams, ih]

theorem applyParams_get?_lt (segs : List (List (List Char))) :
    ∀ (ents : List Entity) (i : Nat) (toks : List (List Char)) (e : Entity),
      segs.get? i = some toks → ents.get? i = some e →
      (applyParams segs ents).get? i =
        some { e with type := toks.headD [], params := toks.tail.map parseIgesFloat } := by
  induction segs with
  | nil => intro ents i toks e hseg _; cases hseg
  | cons s ss ih =>
    intro ents i toks e hseg hent
    cases ents with
    | nil => cases hent
    | cons e0 es =>
      cases i with
      | zero =>
        cases hseg
        cases hent
        rfl
      | succ i =>
        simp only [List.get?_cons_succ] at hseg hent
        simp only [applyParams, List.get?_cons_succ]
        exact ih es i toks e hseg hent

theorem applyParams_get?_ge (segs : List (List (List Char))) :
    ∀ (ents : List Entity) (i : Nat), segs.length ≤ i →
      (applyParams segs ents).get? i = ents.get? i := by
  induction segs with
  | nil => intro ents i _; cases ents <;> rfl
  | cons s ss ih =>
    intro ents i h
    cases ents with
    | nil => rfl
    | cons e0 es =>
      cases i with
      | zero => simp at h
      | succ i =>
        simp only [applyParams, List.get?_cons_succ]
        exact ih es i (by simp at h; omega)

theorem parseDirection_entity_shape (data : List Char) (k : Nat) (e : Entity)
    (h : (parseDirection data).get? k = some e) :
    e.type = chars "0" ∧ e.params = [] := by
  rw [parseDirection_get?_eq] at h
  by_cases hle : data.length ≤ 160 * k
  · rw [if_pos hle] at h
    cases h
  · rw [if_neg hle] at h
    rw [← Option.some.inj h]
    exact ⟨rfl, rfl⟩

/-- C10 (amended): entities are joined to parameter segments by position.
When the `i`-th segment (from the literal `';'` split with the final piece
popped) and the `i`-th Directory record both exist, the assembled entity's
dispatch type is the segment's leading token (the Directory entity type is
not consulted) and its params are the remaining tokens float-decoded; when
the `i`-th Directory record has no segment, the entity is left exactly as
`parseDirection` built it — type `"0"` (the `Entity` constructor rendered
the default attribute's type before the Directory fields were assigned,
not the Directory entity-type code) and an empty parameter list; segments
beyond the Directory record count are silently discarded (the entity list
keeps its length). -/
theorem positional_join (dirData paramData : List Char) :
    ((parseParameter paramData (parseDirection dirData)).length
        = (parseDirection dirData).length) ∧
    (∀ (i : Nat) (seg : List Char) (e0 : Entity),
      ((splitChar ';' paramData).dropLast).get? i = some seg →
      (parseDirection dirData).get? i = some e0 →
      (parseParameter paramData (parseDirection dirData)).get? i =
        some ⟨(splitChar ',' seg).headD [], e0.attr,
              ((splitChar ',' seg).tail).map parseIgesFloat⟩) ∧
    (∀ (i : Nat) (e0 : Entity),
      ((splitChar ';' paramData).dropLast).length ≤ i →
      (parseDirection dirData).get? i = some e0 →
      (parseParameter paramData (parseDirection dirData)).get? i = some e0 ∧
        e0.type = chars "0" ∧ e0.params = []) := by
  refine ⟨applyParams_length _ _, ?_, ?_⟩
  · intro i seg e0 hseg hent
    have hmap : (((splitChar ';' paramData).dropLast).map (splitChar ',')).get? i
        = some (splitChar ',' seg) := by
      rw [List.get?_map, hseg]
      rfl
    have h := applyParams_get?_lt _ _ i (splitChar ',' seg) e0 hmap hent
    exact h
  · intro i e0 hlen hent
    have h := applyParams_get?_ge (((splitChar ';' paramData).dropLast).map (splitChar ',')) 
      (parseDirection dirData) i (by simpa using hlen)
    refine ⟨?_, parseDirection_entity_shape dirData i e0 hent⟩
    rw [parseParameter, h, hent]

/-- C10 counterexample: a Directory record whose entity-type field is 116,
with no Parameter segment, yields an assembled entity whose type is the
string `"0"` — not the Directory entity-type code rendered as `"116"` as
the claim states. -/
theorem entity_without_params_keeps_zero_type :
    (parseParameter [] (parseDirection dirRecordSynth)).map Entity.type = [chars "0"] ∧
    jsParseInt (substrL dirRecordSynth 0 8) = some 116 ∧
    chars "0" ≠ chars "116" := by
  exact ⟨by decide, by decide, by decide⟩

/-- C10 witness: one blank Directory window joined with the single segment
`116,1` dispatches as type `"116"` with params `[1]`. -/
theorem positional_join_witness :
    (parseParameter (chars "116,1;") (parseDirection (List.replicate 160 ' '))).get? 0 =
      some ⟨chars "116",
            ⟨none, none, none, none, none, none, none, none, chars "        ",
             none, none, none, none, none, [], none⟩, [some 1]⟩ := by
  have h := (positional_join (List.replicate 160 ' ') (chars "116,1;")).2.1 0
    (chars "116,1")
    ⟨chars "0",
     ⟨none, none, none, none, none, none, none, none, chars "        ",
      none, none, none, none, none, [], none⟩, []⟩
    (by decide) (by decide)
  rw [h]
  with_unfolding_all rfl

theorem stepLine_short (st : SplitState) (l : List Char) (h : l.length < 73) :
    stepLine st l = { st with diags := st.diags + 1 } := by
  unfold stepLine
  rw [if_pos h]

theorem foldl_stepLine_short (ls : List (List Char)) : ∀ st : SplitState,
    (∀ l ∈ ls, l.length < 73) →
    ls.foldl stepLine st = { st with diags := st.diags + ls.length } := by
  induction ls with
  | nil => intro st _; simp
  | cons l ls ih =>
    intro st h
    simp only [List.foldl_cons]
    rw [stepLine_short st l (h l (by simp)), ih _ (fun x hx => h x (by simp [hx]))]
    simp only [List.length_cons]
    congr 1
    omega

/-- C4: a line shorter than 73 characters never aborts the parse — the
splitter's step on such a line only increments the diagnostic count — and
a file whose every non-empty physical line is shorter than 73 characters
parses without error to an empty result: no entities, no group children,
and exactly one diagnostic per skipped line. -/
theorem short_lines_skipped :
    (∀ data : List Char, (∀ l ∈ jsLines data, l.length < 73) →
      parseIges data = Except.ok ⟨[], [], (jsLines data).length⟩) ∧
    (∀ (st : SplitState) (l : List Char), l.length < 73 →
      stepLine st l = { st with diags := st.diags + 1 }) := by
  refine ⟨?_, stepLine_short⟩
  intro data h
  have hc : classifyLines (jsLines data)
      = { initSections with diags := initSections.diags + (jsLines data).length } :=
    foldl_stepLine_short (jsLines data) initSections h
  have h1 : parseParameter [] (parseDirection []) = [] := rfl
  have h2 : terminateFails (parseTerminate []) (0 : Nat) = false := rfl
  have h3 : synthAll [] = ([], 0) := rfl
  simp only [parseIges, hc, h1, h2, h3, List.length_nil, initSections]
  norm_num

/-- C4 witness: a two-line file, both lines short, parses to the empty
result with two diagnostics. -/
theorem short_lines_skipped_witness :
    parseIges (chars "ab\ncd") = Except.ok ⟨[], [], 2⟩ := by
  have h := short_lines_skipped.1 (chars "ab\ncd") (by decide)
  rw [h]
  with_unfolding_all rfl

/-- C1 (amended): the parse raises the single fatal
"inconsistent entity count" error — and it is the only possible error, with
no partial result (`Except.error` carries nothing else) — if and only if
the Terminate section's declared Directory line count parses to a nonzero
integer `d` with `2 * (assembled entity count) ≠ d` (i.e. the count differs
from `d / 2`).  When the declared count is zero or unparsable the check is
skipped entirely and no error is raised, whatever the entity count. -/
theorem terminate_error_iff (data : List Char) :
    (parseIges data = Except.error (chars "ERROR: Inconsistent entity count") ↔
      (∃ d : Int,
        (parseTerminate (classifyLines (jsLines data)).termSec).lineNum_D = some d ∧
        d ≠ 0 ∧
        2 * (((parseParameter (classifyLines (jsLines data)).paramSec
            (parseDirection (classifyLines (jsLines data)).dirSec)).length : Int)) ≠ d)) ∧
    ((parseIges data).isOk = true ∨
      parseIges data = Except.error (chars "ERROR: Inconsistent entity count")) := by
  have hshape : parseIges data =
      (if terminateFails
          (parseTerminate (classifyLines (jsLines data)).termSec)
          (parseParameter (classifyLines (jsLines data)).paramSec
            (parseDirection (classifyLines (jsLines data)).dirSec)).length then
        Except.error (chars "ERROR: Inconsistent entity count")
      else
        Except.ok
          ⟨parseParameter (classifyLines (jsLines data)).paramSec
              (parseDirection (classifyLines (jsLines data)).dirSec),
           (synthAll (parseParameter (classifyLines (jsLines data)).paramSec
              (parseDirection (classifyLines (jsLines data)).dirSec))).1,
           (classifyLines (jsLines data)).diags +
             (synthAll (parseParameter (classifyLines (jsLines data)).paramSec
              (parseDirection (classifyLines (jsLines data)).dirSec))).2⟩) := by
    unfold parseIges
    rfl
  have hiff : ∀ n : Nat,
      (terminateFails (parseTerminate (classifyLines (jsLines data)).termSec) n = true ↔
        (∃ d : Int,
          (parseTerminate (classifyLines (jsLines data)).termSec).lineNum_D = some d ∧
          d ≠ 0 ∧ 2 * (n : Int) ≠ d)) := by
    intro n
    unfold terminateFails
    rcases hd : (parseTerminate (classifyLines (jsLines data)).termSec).lineNum_D with _ | d
    · simp
    · by_cases h0 : d = 0
      · subst h0
        simp
      · by_cases h2 : 2 * (n : Int) = d
        · show (if d = 0 then false else if 2 * (n : Int) = d then false else true)
              = true ↔ _
          rw [if_neg h0, if_pos h2]
          simp only [Bool.false_eq_true, false_iff]
          rintro ⟨d', hd', _, hne⟩
          cases Option.some.inj hd'
          exact hne h2
        · show (if d = 0 then false else if 2 * (n : Int) = d then false else true)
              = true ↔ _
          rw [if_neg h0, if_neg h2]
          simp only [true_iff]
          exact ⟨d, rfl, h0, h2⟩
  rw [hshape]
  cases hb : terminateFails
      (parseTerminate (classifyLines (jsLines data)).termSec)
      (parseParameter (classifyLines (jsLines data)).paramSec
        (parseDirection (classifyLines (jsLines data)).dirSec)).length with
  | false =>
    rw [if_neg (by simp [hb])]
    constructor
    · constructor
      · intro hcontra
        exact absurd hcontra (by simp)
      · intro hex
        have hcontra := (hiff _).mpr hex
        rw [hb] at hcontra
        cases hcontra
    · left
      rfl
  | true =>
    rw [if_pos (by simp [hb])]
    constructor
    · constructor
      · intro _
        exact (hiff _).mp hb
      · intro _
        rfl
    · right
      rfl

/-- C1 counterexample: a file assembling one entity whose Terminate section
declares a Directory line count of 0.  The entity count (1) differs from
the declared count divided by 2 (0), yet the parse succeeds without any
error — refuting the claim that the check also fires for a declared count
of zero. -/
theorem terminate_zero_declared_no_error :
    (parseIges fileZeroDeclared).isOk = true ∧
    (parseParameter (classifyLines (jsLines fileZeroDeclared)).paramSec
      (parseDirection (classifyLines (jsLines fileZeroDeclared)).dirSec)).length = 1 ∧
    (parseTerminate (classifyLines (jsLines fileZeroDeclared)).termSec).lineNum_D
      = some 0 ∧
    (1 : Int) ≠ 0 / 2 := by
  refine ⟨?_, ?_, ?_, by decide⟩ <;> with_unfolding_all rfl

/-- C2 (code-bug evidence): in `fileOverriddenDelims` the Global section
declares field delimiter `|` and terminator `#`, and the Parameter buffer
is `116|1.0|2.0|3.0#`.  Splitting that buffer on the declared terminator
(then popping the final piece, as the claim describes) would yield the
single segment `116|1.0|2.0|3.0`; `parseParameter` instead splits on the
literal `';'` and `','`, so after popping it has no segments at all, the
lone entity keeps its constructor type `"0"` and empty params, and the
parse yields a group with no children instead of a type-116 point. -/
theorem param_split_ignores_declared_delims :
    parseGlobal (classifyLines (jsLines fileOverriddenDelims)).globalSec
      = ⟨chars "|", chars "#"⟩ ∧
    (classifyLines (jsLines fileOverriddenDelims)).paramSec
      = chars "116|1.0|2.0|3.0#" ∧
    (splitList (chars "#") (chars "116|1.0|2.0|3.0#")).dropLast
      = [chars "116|1.0|2.0|3.0"] ∧
    (splitChar ';' (chars "116|1.0|2.0|3.0#")).dropLast = [] ∧
    (parseParameter (classifyLines (jsLines fileOverriddenDelims)).paramSec
      (parseDirection (classifyLines (jsLines fileOverriddenDelims)).dirSec)).map
        Entity.type = [chars "0"] ∧
    (parseIges fileOverriddenDelims).toOption.map ParseResult.children = some [] := by
  refine ⟨?_, ?_, ?_, ?_, ?_, ?_⟩ <;> with_unfolding_all rfl
